import Mathlib

/-!
Verification of the Flappy Dragon game (`src/main.rs`).

Shallow embedding conventions:
* Rust `i32` values are modelled as `Int`.  The quantities involved (positions,
  scores, gap sizes) stay far from the `i32` bounds in every claim considered,
  so wrap-around is not modelled.
* Rust `f32` values (`Player.y`, `Player.velocity`, `frame_time`) are carried
  as rationals.  Every binary32 value is an exact rational, so this is lossless
  for states; for the arithmetic, two treatments are used.  Claims whose truth
  is insensitive to rounding use idealised exact addition (the literals `0.1`,
  `2.0`, `-1.0`, `75.0` becoming `1/10`, `2`, `-1`, `75`): the `y ≥ 0` clamp
  holds under any rounding of the sum, `-1.0` is assigned (not computed), and
  positions, scores and frames are integer arithmetic.  The velocity-cap
  claim IS sensitive to rounding, so for it the `f32` addition is modelled
  exactly as IEEE-754 binary32 round-to-nearest-even (`rnd32`, `velStep32`
  below).
* Rust `/` on `i32` truncates toward zero, which is `Int.tdiv` (NOT `Int.ediv`,
  the meaning of `/` on `Int` here).
* The `f32 as i32` cast truncates toward zero; it is modelled by `f32toi32`
  (saturation at the `i32` bounds is outside the range exercised by the game).
* The rendering library (`bracket-lib`) is external: drawing calls are dropped,
  `ctx.key` becomes an `Option Key` argument, `ctx.frame_time_ms` a rational
  argument, `ctx.quitting` a returned `Bool`, and the xorshift random draw
  `random.range(5, 20)` made inside `Obstacle::new` is injected as the
  parameter `gapY` of every function that may construct an obstacle.
-/

set_option maxRecDepth 4096

namespace FlappyDragon

/-- Rust `const SCREEN_WIDTH: i32 = 40`. -/
def SCREEN_WIDTH : Int := 40

/-- Rust `const SCREEN_HEIGHT: i32 = 25`. -/
def SCREEN_HEIGHT : Int := 25

/-- Rust `const FRAME_DURATION: f32 = 75.0`. -/
def FRAME_DURATION : ℚ := 75

/-- Rust `const DRAGON_FRAMES: [u16; 6] = [64, 1, 2, 3, 2, 1]`. -/
def DRAGON_FRAMES : List Nat := [64, 1, 2, 3, 2, 1]

/-- The Rust cast `(q : f32) as i32`: truncation toward zero. -/
def f32toi32 (q : ℚ) : Int := Int.tdiv q.num (q.den : Int)

/-- Rust `struct Player { x: i32, y: f32, velocity: f32, frame: usize }`. -/
structure Player where
  x : Int
  y : ℚ
  velocity : ℚ
  frame : Nat
deriving DecidableEq

/-- Constructor `Player::new(x, y)`: `y` arrives as an `i32` and is cast to `f32`. -/
def Player.new (x y : Int) : Player :=
  { x := x, y := (y : ℚ), velocity := 0, frame := 0 }

/-- Method `Player::gravity_and_move`:
if `velocity < 2.0` add `0.1`; then `y += velocity`; clamp `y` at `0.0`;
`x += 1`; `frame = (frame + 1) % 6`.  (`mkRat 1 10` is the exact rational
`0.1`, written so that the kernel can evaluate it.)  The exact-rational
addition here idealises the `f32` addition; it is adequate for the clamp and
the integer fields, which are insensitive to rounding, but not for the
velocity cap: the rounding-faithful velocity model `velStep32` below is used
for that. -/
def Player.gravity_and_move (p : Player) : Player :=
  let velocity := if p.velocity < 2 then p.velocity + mkRat 1 10 else p.velocity
  let y0 := p.y + velocity
  let y := if y0 < 0 then 0 else y0
  { x := p.x + 1, y := y, velocity := velocity, frame := (p.frame + 1) % 6 }

/-- Method `Player::flap`: `self.velocity = -1.0`. -/
def Player.flap (p : Player) : Player := { p with velocity := -1 }

/-- Rust `enum GameMode { Menu, Playing, End }`. -/
inductive GameMode
  | Menu
  | Playing
  | End
deriving DecidableEq

/-- Rust `struct Obstacle { x: i32, gap_y: i32, size: i32 }`. -/
structure Obstacle where
  x : Int
  gap_y : Int
  size : Int
deriving DecidableEq

/-- Constructor `Obstacle::new(x, score)`: `gap_y = random.range(5, 20)` is injected as
`gapY`; `size = i32::max(2, 10 - score)`. -/
def Obstacle.new (x score gapY : Int) : Obstacle :=
  { x := x, gap_y := gapY, size := max 2 (10 - score) }

/-- The local `let half_size = self.size / 2` computed in `hit_obstacle`
(and in `render`): truncating `i32` division. -/
def Obstacle.half_size (o : Obstacle) : Int := Int.tdiv o.size 2

/-- Method `Obstacle::hit_obstacle(player)`:
`player.x == self.x && ((player.y as i32) < self.gap_y - half_size || player.y as i32 > self.gap_y + half_size)`. -/
def Obstacle.hit_obstacle (o : Obstacle) (p : Player) : Bool :=
  (p.x == o.x) &&
    (decide (f32toi32 p.y < o.gap_y - o.half_size) ||
      decide (f32toi32 p.y > o.gap_y + o.half_size))

/-- Rust `struct State { player, frame_time, obstacle, mode, score }`. -/
structure State where
  player : Player
  frame_time : ℚ
  obstacle : Obstacle
  mode : GameMode
  score : Int
deriving DecidableEq

/-- Constructor `State::new()`: player at `(5, 25)`, obstacle `Obstacle::new(SCREEN_WIDTH, 0)`,
mode `Menu`, score `0`. -/
def State.new (gapY : Int) : State :=
  { player := Player.new 5 25
    frame_time := 0
    obstacle := Obstacle.new SCREEN_WIDTH 0 gapY
    mode := GameMode.Menu
    score := 0 }

/-- The `VirtualKeyCode`s the game distinguishes; `Other` stands for every
key code other than `P`, `Q` and `Space`. -/
inductive Key
  | P
  | Q
  | Space
  | Other
deriving DecidableEq

/-- Method `State::restart`: player `Player::new(5, SCREEN_WIDTH / 2)`, `frame_time = 0`,
obstacle `Obstacle::new(SCREEN_WIDTH, 0)`, mode `Playing`, score `0`.
Every field is overwritten, so the prior state `s` is irrelevant. -/
def State.restart (s : State) (gapY : Int) : State :=
  { player := Player.new 5 (Int.tdiv SCREEN_WIDTH 2)
    frame_time := 0
    obstacle := Obstacle.new SCREEN_WIDTH 0 gapY
    mode := GameMode.Playing
    score := 0 }

/-- Method `State::main_menu`: on `P` restart, on `Q` set `ctx.quitting`, any other
key (or none) is ignored.  Returns the updated state and the quitting flag. -/
def State.main_menu (s : State) (key : Option Key) (gapY : Int) : State × Bool :=
  match key with
  | some Key.P => (s.restart gapY, false)
  | some Key.Q => (s, true)
  | some _ => (s, false)
  | none => (s, false)

/-- Method `State::dead`: identical key handling to `main_menu`. -/
def State.dead (s : State) (key : Option Key) (gapY : Int) : State × Bool :=
  match key with
  | some Key.P => (s.restart gapY, false)
  | some Key.Q => (s, true)
  | some _ => (s, false)
  | none => (s, false)

/-- Method `State::play`: accumulate `frame_time`; if it exceeds `FRAME_DURATION`,
reset it and run `gravity_and_move`; on `Space` flap; if the (moved) player's
`x` exceeds the obstacle's `x`, increment the score and replace the obstacle
by `Obstacle::new(player.x + SCREEN_WIDTH, score)` (the incremented score);
finally if `player.y as i32 > SCREEN_HEIGHT` or the (possibly new) obstacle is
hit, switch mode to `End`. -/
def State.play (s : State) (frame_time_ms : ℚ) (key : Option Key) (gapY : Int) : State :=
  let ft := s.frame_time + frame_time_ms
  let ft2 := if ft > FRAME_DURATION then 0 else ft
  let player0 := if ft > FRAME_DURATION then s.player.gravity_and_move else s.player
  let player := if key == some Key.Space then player0.flap else player0
  let score := if player.x > s.obstacle.x then s.score + 1 else s.score
  let obstacle :=
    if player.x > s.obstacle.x then Obstacle.new (player.x + SCREEN_WIDTH) (s.score + 1) gapY
    else s.obstacle
  let mode :=
    if f32toi32 player.y > SCREEN_HEIGHT || obstacle.hit_obstacle player then GameMode.End
    else s.mode
  { player := player, frame_time := ft2, obstacle := obstacle, mode := mode, score := score }

/-- Method `GameState::tick`: dispatch on the mode.  Returns the updated state and
whether this tick requested quitting (`play` never does). -/
def State.tick (s : State) (frame_time_ms : ℚ) (key : Option Key) (gapY : Int) : State × Bool :=
  match s.mode with
  | GameMode.Menu => s.main_menu key gapY
  | GameMode.End => s.dead key gapY
  | GameMode.Playing => (s.play frame_time_ms key gapY, false)

/-- The player states reachable in the program: built by `State::new`
(`Player::new(5, 25)`) or `State::restart` (`Player::new(5, SCREEN_WIDTH / 2)`),
then evolved by `gravity_and_move` (the physics tick) and `flap` (input);
no other code touches the player. -/
inductive PlayerReachable : Player → Prop
  | init : PlayerReachable (Player.new 5 25)
  | restart : PlayerReachable (Player.new 5 (Int.tdiv SCREEN_WIDTH 2))
  | step (p : Player) : PlayerReachable p → PlayerReachable p.gravity_and_move
  | flap (p : Player) : PlayerReachable p → PlayerReachable p.flap

/-- The collision test as the spec words it: horizontal positions equal and
the player's vertical position (the `f32` itself, not its integer truncation)
outside the closed interval `[gap_y - half_size, gap_y + half_size]`. -/
def specCollision (o : Obstacle) (p : Player) : Prop :=
  p.x = o.x ∧
    ¬ (((o.gap_y - o.half_size : Int) : ℚ) ≤ p.y ∧ p.y ≤ ((o.gap_y + o.half_size : Int) : ℚ))

/-- Method `Player::render` looks up `DRAGON_FRAMES[self.frame]`; the lookup is
modelled as an `Option`, `none` standing for an out-of-bounds index. -/
def Player.renderGlyph (p : Player) : Option Nat := DRAGON_FRAMES.get? p.frame

/-! ### Faithful binary32 arithmetic for the velocity

The velocity-cap claim is sensitive to floating-point rounding, so for it the
`f32` addition `self.velocity += 0.1` is modelled exactly: `rnd32` is
IEEE-754 binary32 rounding (round to nearest, ties to even) and `velStep32`
is the velocity assignment of `gravity_and_move` under it.  The program
writes the velocity in exactly three places — `Player::new` (`0.0`), `flap`
(`-1.0`) and this guarded increment — and the velocity never depends on `y`
or any other field, so it can be tracked on its own.

The arithmetic inside this model is written through `mkRat` (`qadd`, `qsub`,
`qmul`) rather than `+`, `-`, `*`, whose instances on `ℚ` do not evaluate
under `decide`; the lemmas `qadd_eq_add`, `qsub_eq_sub` and `qmul_eq_mul`
below prove the two notions agree, so this changes nothing mathematically. -/

/-- Exact rational addition, written through `mkRat` so that proofs can
evaluate it; equal to `+` by `qadd_eq_add`. -/
def qadd (a b : ℚ) : ℚ :=
  mkRat (a.num * (b.den : ℤ) + b.num * (a.den : ℤ)) (a.den * b.den)

/-- Exact rational subtraction; equal to `-` by `qsub_eq_sub`. -/
def qsub (a b : ℚ) : ℚ :=
  mkRat (a.num * (b.den : ℤ) - b.num * (a.den : ℤ)) (a.den * b.den)

/-- Exact rational multiplication; equal to `*` by `qmul_eq_mul`. -/
def qmul (a b : ℚ) : ℚ := mkRat (a.num * b.num) (a.den * b.den)

/-- Floor of a rational, computably (`den` is positive, so the Euclidean
division of `num` by `den` is the floor). -/
def qfloor (q : ℚ) : ℤ := q.num / (q.den : ℤ)

/-- Powers of two as rationals. -/
def twoPowQ (z : ℤ) : ℚ :=
  if 0 ≤ z then mkRat (Int.ofNat (Nat.pow 2 z.toNat)) 1 else mkRat 1 (Nat.pow 2 (-z).toNat)

/-- Floor of the base-2 logarithm of a positive rational, by binary search
over the exponent window `[-32, 32)`.  Every value this development applies
it to lies well inside the window (the reachable velocities and their
incremented sums have magnitudes between `2 ^ (-26)` and `2 ^ 2`). -/
def qlog2 (q : ℚ) : ℤ :=
  let e1 : ℤ := if twoPowQ 0 ≤ q then 0 else -32
  let e2 : ℤ := if twoPowQ (e1 + 16) ≤ q then e1 + 16 else e1
  let e3 : ℤ := if twoPowQ (e2 + 8) ≤ q then e2 + 8 else e2
  let e4 : ℤ := if twoPowQ (e3 + 4) ≤ q then e3 + 4 else e3
  let e5 : ℤ := if twoPowQ (e4 + 2) ≤ q then e4 + 2 else e4
  if twoPowQ (e5 + 1) ≤ q then e5 + 1 else e5

/-- Round a nonnegative rational to the nearest integer, ties to even. -/
def rndIntNE (q : ℚ) : ℤ :=
  let n := qfloor q
  let frac := qsub q (mkRat n 1)
  if frac < mkRat 1 2 then n
  else if mkRat 1 2 < frac then n + 1
  else if n % 2 = 0 then n else n + 1

/-- IEEE-754 binary32 rounding (round to nearest, ties to even) of a
rational: scale the magnitude into `[2 ^ 23, 2 ^ 24)`, round the scaled
significand to an integer, scale back, restore the sign.  Faithful for
magnitudes in the normal range covered by `qlog2`; subnormals and overflow
(never reached here) are not modelled. -/
def rnd32 (q : ℚ) : ℚ :=
  if q = 0 then 0
  else
    let a := if q < 0 then -q else q
    let e := qlog2 a
    let m := rndIntNE (qmul a (twoPowQ (23 - e)))
    qmul (mkRat (if q < 0 then -m else m) 1) (twoPowQ (e - 23))

/-- The binary32 value of the literal `0.1`: `13421773 / 2 ^ 27`. -/
def tenthF32 : ℚ := mkRat 13421773 134217728

/-- The velocity assignment of `gravity_and_move` under faithful binary32
arithmetic: `if self.velocity < 2.0 { self.velocity += 0.1; }` with the sum
correctly rounded (the comparison of two binary32 values is exact). -/
def velStep32 (v : ℚ) : ℚ := if v < 2 then rnd32 (qadd v tenthF32) else v

/-- The velocity values reachable in the program under binary32 arithmetic:
`0.0` from `Player::new`, `-1.0` from `flap` (reachable at any time), and
the guarded increment of the physics tick — the only three writes to the
velocity in the source. -/
inductive VelReachable32 : ℚ → Prop
  | init : VelReachable32 0
  | flap : VelReachable32 (-1)
  | step (v : ℚ) : VelReachable32 v → VelReachable32 (velStep32 v)

/-- The finitely many velocities reachable under binary32 arithmetic: the
guarded `+= 0.1f` chains out of `0.0` (21 values) and out of `-1.0` (which
merges into the first chain after its tenth tick), both ending in the fixed
point `2 + 2 ^ (-22)`. -/
def velSet : List ℚ :=
  [0, mkRat 13421773 134217728, mkRat 13421773 67108864, mkRat 5033165 16777216,
   mkRat 13421773 33554432, mkRat 1 2, mkRat 5033165 8388608, mkRat 2936013 4194304,
   mkRat 6710887 8388608, mkRat 1887437 2097152, mkRat 8388609 8388608, mkRat 4613735 4194304,
   mkRat 10066331 8388608, mkRat 1363149 1048576, mkRat 11744053 8388608, mkRat 6291457 4194304,
   mkRat 13421775 8388608, mkRat 3565159 2097152, mkRat 15099497 8388608, mkRat 7969179 4194304,
   mkRat 8388609 4194304, (-1 : ℚ), mkRat (-7549747) 8388608, mkRat (-3355443) 4194304,
   mkRat (-5872025) 8388608, mkRat (-1258291) 2097152, mkRat (-16777213) 33554432,
   mkRat (-6710885) 16777216, mkRat (-10066327) 33554432, mkRat (-1677721) 8388608,
   mkRat (-13421763) 134217728, mkRat 5 67108864, mkRat 13421783 134217728,
   mkRat 6710889 33554432, mkRat 2516583 8388608, mkRat 13421775 33554432, mkRat 8388609 16777216,
   mkRat 10066331 16777216, mkRat 11744053 16777216, mkRat 13421775 16777216,
   mkRat 15099497 16777216]

instance (o : Obstacle) (p : Player) : Decidable (specCollision o p) :=
  inferInstanceAs (Decidable (_ ∧ _))

/-! ### Helper lemmas -/

/-- Reading of `hit_obstacle` as a proposition, with the truncated vertical position. -/
theorem hit_obstacle_iff (o : Obstacle) (p : Player) :
    o.hit_obstacle p = true ↔
      p.x = o.x ∧ (f32toi32 p.y < o.gap_y - o.half_size ∨ f32toi32 p.y > o.gap_y + o.half_size) := by
  simp [Obstacle.hit_obstacle]

/-- Truncating division in terms of Euclidean division, for `omega`. -/
theorem tdiv_eq_cases (a b : Int) (hb : 0 ≤ b) :
    Int.tdiv a b = if 0 ≤ a then a / b else -((-a) / b) := by
  rcases le_or_lt 0 a with h | h
  · rw [if_pos h, Int.tdiv_eq_ediv h hb]
  · rw [if_neg (by omega)]
    have h2 : 0 ≤ -a := by omega
    rw [← Int.tdiv_eq_ediv h2 hb, ← Int.neg_tdiv, neg_neg]

/-- On nonnegative rationals the Rust `f32 as i32` cast is the floor. -/
theorem f32toi32_eq_floor (q : ℚ) (h : 0 ≤ q) : f32toi32 q = ⌊q⌋ := by
  have hnum : 0 ≤ q.num := Rat.num_nonneg.mpr h
  rw [f32toi32, Int.tdiv_eq_ediv hnum (Int.natCast_nonneg _), Rat.floor_def]

/-- The gap half-size of a fresh obstacle, in the closed form the spec uses. -/
theorem half_size_new (x score gapY : Int) :
    (Obstacle.new x score gapY).half_size = max 1 (Int.tdiv (10 - score) 2) := by
  show Int.tdiv (max 2 (10 - score)) 2 = max 1 (Int.tdiv (10 - score) 2)
  rcases le_or_lt 0 (10 - score) with h | h
  · rw [tdiv_eq_cases _ _ (by omega), tdiv_eq_cases _ _ (by omega), if_pos h,
      if_pos (by omega : (0:Int) ≤ max 2 (10 - score))]
    omega
  · rw [max_eq_left (by omega : 10 - score ≤ 2), tdiv_eq_cases 2 2 (by omega),
      tdiv_eq_cases (10 - score) 2 (by omega), if_pos (by omega : (0:Int) ≤ 2),
      if_neg (by omega : ¬ (0:Int) ≤ 10 - score)]
    omega

/-! ### Claims -/

/-- C1, as stated, is false: the code truncates the player's `f32` vertical
position to an `i32` before comparing, so a fractional position just past the
gap edge (here `y = 16.5` against the gap `[8, 16]`) is not reported as a
collision even though it lies outside the closed interval. -/
theorem C1_counterexample :
    ¬ ((Obstacle.hit_obstacle ⟨45, 12, 8⟩ ⟨45, mkRat 33 2, 0, 0⟩ = true) ↔
        specCollision ⟨45, 12, 8⟩ ⟨45, mkRat 33 2, 0, 0⟩) := by
  decide

/-- C1 (amended): the collision test returns true if and only if the player's
horizontal position equals the obstacle's horizontal position and the
player's vertical position, truncated toward zero to an integer (the `as i32`
cast), lies outside the closed interval
`[gap center - half-size, gap center + half-size]`. -/
theorem C1_hit_iff_outside_gap (o : Obstacle) (p : Player) :
    o.hit_obstacle p = true ↔
      p.x = o.x ∧
        ¬ (o.gap_y - o.half_size ≤ f32toi32 p.y ∧ f32toi32 p.y ≤ o.gap_y + o.half_size) := by
  rw [hit_obstacle_iff]
  exact and_congr_right fun _ => by omega

/-- C2: for every score ≥ 0 the gap half-size of a fresh obstacle equals
`max 1 ((10 - score) / 2)` (truncating integer division), is at least the
minimum 1, stays at least 1 for every larger score, and is 5 at score 0 and
1 at score 8. -/
theorem C2_gap_half_size (x gapY score : Int) (h : 0 ≤ score) :
    (Obstacle.new x score gapY).half_size = max 1 (Int.tdiv (10 - score) 2) ∧
    1 ≤ (Obstacle.new x score gapY).half_size ∧
    (∀ s2 : Int, score ≤ s2 → 1 ≤ (Obstacle.new x s2 gapY).half_size) ∧
    (Obstacle.new x 0 gapY).half_size = 5 ∧
    (Obstacle.new x 8 gapY).half_size = 1 := by
  refine ⟨half_size_new x score gapY, ?_, fun s2 _ => ?_, ?_, ?_⟩
  · rw [half_size_new]; exact le_max_left _ _
  · rw [half_size_new]; exact le_max_left _ _
  · rw [half_size_new]; decide
  · rw [half_size_new]; decide

/-- C2 witness: instantiation at score 0 (obstacle at `x = 40`, gap draw 7). -/
theorem C2_gap_half_size_witness :
    (0:Int) ≤ 0 ∧ (Obstacle.new 40 0 7).half_size = max 1 (Int.tdiv (10 - 0) 2) :=
  ⟨by decide, (C2_gap_half_size 40 7 0 (by decide)).1⟩

/-- The player resulting from a `play` tick: physics if the accumulator
overflows, then flap on `Space`. -/
theorem play_player (s : State) (ftms : ℚ) (key : Option Key) (gapY : Int) :
    (s.play ftms key gapY).player =
      (if key == some Key.Space
        then (if s.frame_time + ftms > FRAME_DURATION then s.player.gravity_and_move
              else s.player).flap
        else (if s.frame_time + ftms > FRAME_DURATION then s.player.gravity_and_move
              else s.player)) := rfl

/-- The score after a `play` tick, conditioned on the moved player. -/
theorem play_score (s : State) (ftms : ℚ) (key : Option Key) (gapY : Int) :
    (s.play ftms key gapY).score =
      if (s.play ftms key gapY).player.x > s.obstacle.x then s.score + 1 else s.score := rfl

/-- The obstacle after a `play` tick, conditioned on the moved player. -/
theorem play_obstacle (s : State) (ftms : ℚ) (key : Option Key) (gapY : Int) :
    (s.play ftms key gapY).obstacle =
      if (s.play ftms key gapY).player.x > s.obstacle.x
        then Obstacle.new ((s.play ftms key gapY).player.x + SCREEN_WIDTH) (s.score + 1) gapY
        else s.obstacle := rfl

/-- C3: in every Playing-mode tick, if the player's horizontal position has
advanced strictly past the obstacle's, the score increments by exactly 1 and
a new obstacle is spawned at the player's horizontal position plus the screen
width, built from the new score; otherwise score and obstacle are unchanged. -/
theorem C3_pass_scoring (s : State) (ftms : ℚ) (key : Option Key) (gapY : Int)
    (hmode : s.mode = GameMode.Playing) :
    ((s.tick ftms key gapY).1.player.x > s.obstacle.x →
      (s.tick ftms key gapY).1.score = s.score + 1 ∧
      (s.tick ftms key gapY).1.obstacle =
        Obstacle.new ((s.tick ftms key gapY).1.player.x + SCREEN_WIDTH) (s.score + 1) gapY) ∧
    ((s.tick ftms key gapY).1.player.x ≤ s.obstacle.x →
      (s.tick ftms key gapY).1.score = s.score ∧
      (s.tick ftms key gapY).1.obstacle = s.obstacle) := by
  have htick : (s.tick ftms key gapY).1 = s.play ftms key gapY := by
    unfold State.tick
    rw [hmode]
  rw [htick]
  constructor
  · intro hgt
    rw [play_score, play_obstacle, if_pos hgt, if_pos hgt]
    exact ⟨rfl, rfl⟩
  · intro hle
    rw [play_score, play_obstacle, if_neg (by omega), if_neg (by omega)]
    exact ⟨rfl, rfl⟩

/-- C3 witness: a Playing state whose obstacle (at `x = 3`) is passed by the
tick (the accumulator 80 exceeds 75, so the player moves from 5 to 6). -/
theorem C3_pass_scoring_witness :
    ({ player := ⟨5, 25, 0, 0⟩, frame_time := 0, obstacle := ⟨3, 12, 8⟩,
       mode := GameMode.Playing, score := 2 } : State).mode = GameMode.Playing ∧
    (({ player := ⟨5, 25, 0, 0⟩, frame_time := 0, obstacle := ⟨3, 12, 8⟩,
        mode := GameMode.Playing, score := 2 } : State).tick 80 none 7).1.score = 2 + 1 :=
  ⟨rfl,
    ((C3_pass_scoring
        { player := ⟨5, 25, 0, 0⟩, frame_time := 0, obstacle := ⟨3, 12, 8⟩,
          mode := GameMode.Playing, score := 2 } 80 none 7 rfl).1
      (by with_unfolding_all decide)).1⟩

/-- C4, as stated, is false: `State::restart` (here reached from the initial
menu state) spawns the obstacle at `x = SCREEN_WIDTH = 40`, not at the
player's position plus the screen width (`5 + 40 = 45`). -/
theorem C4_counterexample :
    ¬ (((State.new 7).restart 7).obstacle.x = ((State.new 7).restart 7).player.x + SCREEN_WIDTH) := by
  decide

/-- C4 (amended): a restart (triggered from Menu or Dead via `P`) always
resets the score to 0, the player to `Player::new(5, 20)` (position `(5, 20)`,
velocity 0), resets the frame-time accumulator, sets the mode to Playing, and
spawns a fresh obstacle at horizontal position `SCREEN_WIDTH = 40` — one
screen width from the origin, not from the player — regardless of the prior
state; the initial game state performs the same resets except that its mode
is Menu and the player starts at vertical position 25. -/
theorem C4_restart_resets (s : State) (gapY : Int) :
    (s.restart gapY).score = 0 ∧
    (s.restart gapY).player = Player.new 5 20 ∧
    (s.restart gapY).player.velocity = 0 ∧
    (s.restart gapY).frame_time = 0 ∧
    (s.restart gapY).mode = GameMode.Playing ∧
    (s.restart gapY).obstacle = Obstacle.new SCREEN_WIDTH 0 gapY ∧
    (s.restart gapY).obstacle.x = SCREEN_WIDTH ∧
    (s.main_menu (some Key.P) gapY).1 = s.restart gapY ∧
    (s.dead (some Key.P) gapY).1 = s.restart gapY ∧
    (State.new gapY).mode = GameMode.Menu ∧
    (State.new gapY).player = Player.new 5 25 ∧
    (State.new gapY).score = 0 ∧
    (State.new gapY).frame_time = 0 ∧
    (State.new gapY).obstacle = Obstacle.new SCREEN_WIDTH 0 gapY :=
  ⟨rfl, rfl, rfl, rfl, rfl, rfl, rfl, rfl, rfl, rfl, rfl, rfl, rfl, rfl⟩

/-- The clamp in `gravity_and_move` keeps the vertical position at or above
the top of the screen, whatever the state before the tick. -/
theorem gravity_and_move_y_nonneg (p : Player) : 0 ≤ p.gravity_and_move.y := by
  have hy : p.gravity_and_move.y =
      if p.y + p.gravity_and_move.velocity < 0 then 0
      else p.y + p.gravity_and_move.velocity := rfl
  rw [hy]
  split
  · exact le_refl (0:ℚ)
  · next h => exact not_lt.mp h

/-- Invariant of the reachable player states in the idealised exact-rational
model: nonnegative vertical position, velocity at most 2 and an exact
multiple of 0.1, frame index below 6.  (Only the position and frame parts
back claims; the velocity parts are internal to this induction, the claim
about the velocity cap being settled on the binary32 model instead.) -/
def PlayerInv (p : Player) : Prop :=
  0 ≤ p.y ∧ p.velocity ≤ 2 ∧ (∃ k : ℤ, p.velocity * 10 = (k : ℚ)) ∧ p.frame < 6

/-- One physics tick preserves the velocity bound and exactness. -/
theorem velocity_step_le (p : Player) (h2 : p.velocity ≤ 2)
    (hk : ∃ k : ℤ, p.velocity * 10 = (k : ℚ)) :
    p.gravity_and_move.velocity ≤ 2 ∧ ∃ k : ℤ, p.gravity_and_move.velocity * 10 = (k : ℚ) := by
  obtain ⟨k, hk⟩ := hk
  have hm : (mkRat 1 10 : ℚ) * 10 = 1 := by with_unfolding_all decide
  have hvel : p.gravity_and_move.velocity =
      if p.velocity < 2 then p.velocity + mkRat 1 10 else p.velocity := rfl
  rw [hvel]
  split
  · next hlt =>
    have hklt : (k : ℚ) < 20 := by rw [← hk]; linarith
    have hk19 : k ≤ 19 := by
      have hk' : k < 20 := by exact_mod_cast hklt
      omega
    have h10 : (p.velocity + mkRat 1 10) * 10 = (k : ℚ) + 1 := by
      rw [add_mul, hk, hm]
    have hk20 : ((k : ℚ)) + 1 ≤ 20 := by
      have hk'' : (k : ℚ) ≤ 19 := by exact_mod_cast hk19
      linarith
    exact ⟨by linarith, ⟨k + 1, by push_cast; linarith⟩⟩
  · next => exact ⟨h2, ⟨k, hk⟩⟩

/-- All reachable player states satisfy the invariant. -/
theorem reachable_inv (p : Player) (h : PlayerReachable p) : PlayerInv p := by
  induction h with
  | init =>
    exact ⟨by norm_num [Player.new], by norm_num [Player.new],
      ⟨0, by norm_num [Player.new]⟩, by norm_num [Player.new]⟩
  | restart =>
    refine ⟨?_, by norm_num [Player.new], ⟨0, by norm_num [Player.new]⟩, by norm_num [Player.new]⟩
    show (0:ℚ) ≤ ((Int.tdiv SCREEN_WIDTH 2 : Int) : ℚ)
    rw [(by decide : Int.tdiv SCREEN_WIDTH 2 = 20)]
    norm_num
  | step p hp ih =>
    obtain ⟨hy, h2, hk, hf⟩ := ih
    obtain ⟨h2s, hks⟩ := velocity_step_le p h2 hk
    refine ⟨gravity_and_move_y_nonneg p, h2s, hks, ?_⟩
    show (p.frame + 1) % 6 < 6
    exact Nat.mod_lt _ (by norm_num)
  | flap p hp ih =>
    obtain ⟨hy, h2, hk, hf⟩ := ih
    exact ⟨hy, by norm_num [Player.flap], ⟨-10, by push_cast [Player.flap]; norm_num⟩, hf⟩

/-- C5: after every physics tick the player's vertical position is ≥ 0,
regardless of the accumulated velocity and of the position before the tick;
and every reachable player state has vertical position ≥ 0 (no other
operation makes it negative). -/
theorem C5_y_nonneg (p q : Player) (h : PlayerReachable q) :
    0 ≤ p.gravity_and_move.y ∧ 0 ≤ q.y :=
  ⟨gravity_and_move_y_nonneg p, (reachable_inv q h).1⟩

/-- C5 witness: the initial player. -/
theorem C5_y_nonneg_witness :
    PlayerReachable (Player.new 5 25) ∧
      (0 ≤ (Player.new 5 25).gravity_and_move.y ∧ 0 ≤ (Player.new 5 25).y) :=
  ⟨PlayerReachable.init, C5_y_nonneg (Player.new 5 25) (Player.new 5 25) PlayerReachable.init⟩

/-- Agreement of `qadd` with rational addition. -/
theorem qadd_eq_add (a b : ℚ) : qadd a b = a + b := by
  have ha : ((a.den : ℚ)) ≠ 0 := Nat.cast_ne_zero.mpr a.den_nz
  have hb : ((b.den : ℚ)) ≠ 0 := Nat.cast_ne_zero.mpr b.den_nz
  rw [qadd, Rat.mkRat_eq_div]
  push_cast
  conv_rhs => rw [← Rat.num_div_den a, ← Rat.num_div_den b]
  rw [div_add_div _ _ ha hb]
  congr 1
  ring

/-- Agreement of `qsub` with rational subtraction. -/
theorem qsub_eq_sub (a b : ℚ) : qsub a b = a - b := by
  have ha : ((a.den : ℚ)) ≠ 0 := Nat.cast_ne_zero.mpr a.den_nz
  have hb : ((b.den : ℚ)) ≠ 0 := Nat.cast_ne_zero.mpr b.den_nz
  rw [qsub, Rat.mkRat_eq_div]
  push_cast
  conv_rhs => rw [← Rat.num_div_den a, ← Rat.num_div_den b]
  rw [div_sub_div _ _ ha hb]
  congr 1
  ring

/-- Agreement of `qmul` with rational multiplication. -/
theorem qmul_eq_mul (a b : ℚ) : qmul a b = a * b := by
  rw [qmul, Rat.mkRat_eq_div]
  push_cast
  conv_rhs => rw [← Rat.num_div_den a, ← Rat.num_div_den b]
  rw [div_mul_div_comm]

/-- Validation of the rounding model: `0.1f` is the correctly rounded
binary32 value of `1/10`. -/
theorem rnd32_tenth : rnd32 (mkRat 1 10) = tenthF32 := by decide

/-- Validation of the rounding model: ten accumulated `0.1f` additions give
the classic binary32 result `1 + 2 ^ (-23) = 1.00000011920928955078125`. -/
theorem rnd32_ten_tenths :
    (fun v => rnd32 (qadd v tenthF32))^[10] 0 = mkRat 8388609 8388608 := by
  decide

/-- `velSet` is closed under the physics tick. -/
theorem velSet_closed : ∀ v ∈ velSet, velStep32 v ∈ velSet := by
  decide

/-- Every element of `velSet` is at most `2 + 2 ^ (-22) = 8388609 / 2 ^ 22`. -/
theorem velSet_bounded : ∀ v ∈ velSet, v ≤ mkRat 8388609 4194304 := by
  decide

/-- Every velocity reachable under binary32 arithmetic lies in `velSet`. -/
theorem velReachable_mem (v : ℚ) (h : VelReachable32 v) : v ∈ velSet := by
  induction h with
  | init => decide
  | flap => decide
  | step w hw ih => exact velSet_closed w ih

/-- C6, as stated, is false of the program: under faithful binary32
arithmetic the guarded `+= 0.1f` chain from a fresh spawn (velocity `0.0`)
passes the `< 2.0` guard at `1.9000003337860107` on its nineteenth tick, and
the twentieth tick lands at
`mkRat 8388609 4194304 = 2 + 2 ^ (-22) = 2.0000002384185791015625`, a
reachable velocity strictly above the cap `2.0`. -/
theorem C6_counterexample :
    VelReachable32 (mkRat 8388609 4194304) ∧ (2:ℚ) < mkRat 8388609 4194304 := by
  constructor
  · have hiter : ∀ n : ℕ, VelReachable32 (velStep32^[n] 0) := by
      intro n
      induction n with
      | zero => exact VelReachable32.init
      | succ k ih =>
        rw [Function.iterate_succ_apply']
        exact VelReachable32.step _ ih
    have hval : velStep32^[20] 0 = mkRat 8388609 4194304 := by decide
    exact hval ▸ hiter 20
  · decide

/-- C6 (amended): the physics tick increments the velocity (by the binary32
value of 0.1, correctly rounded) only while it is below the terminal cap 2.0
and leaves it unchanged once it is at or above the cap; because the guard
admits one last increment from just below 2.0, the cap holds only up to a
single rounding step: every reachable velocity is at most
`2 + 2 ^ (-22) = 2.0000002384185791015625`, also after one more tick. -/
theorem C6_velocity_capped (v : ℚ) (h : VelReachable32 v) :
    v ≤ mkRat 8388609 4194304 ∧
    velStep32 v ≤ mkRat 8388609 4194304 ∧
    (v < 2 → velStep32 v = rnd32 (qadd v tenthF32)) ∧
    (2 ≤ v → velStep32 v = v) :=
  ⟨velSet_bounded v (velReachable_mem v h),
    velSet_bounded _ (velReachable_mem _ (VelReachable32.step v h)),
    fun hlt => by unfold velStep32; rw [if_pos hlt],
    fun hge => by unfold velStep32; rw [if_neg (not_lt.mpr hge)]⟩

/-- C6 witness: the spawn velocity `0.0`. -/
theorem C6_velocity_capped_witness :
    VelReachable32 0 ∧ (0:ℚ) ≤ mkRat 8388609 4194304 :=
  ⟨VelReachable32.init, (C6_velocity_capped 0 VelReachable32.init).1⟩

/-- C7: `flap` always sets the velocity to the fixed upward constant `-1.0`,
overriding whatever velocity was accumulated before (also an already-negative
one), touches nothing else, and a `Space` key during `play` leaves the
player's velocity at exactly `-1.0` for the frame. -/
theorem C7_flap_sets_velocity (p : Player) (s : State) (ftms : ℚ) (gapY : Int) :
    p.flap.velocity = -1 ∧ p.flap.velocity < 0 ∧
    p.flap.x = p.x ∧ p.flap.y = p.y ∧ p.flap.frame = p.frame ∧
    (s.play ftms (some Key.Space) gapY).player.velocity = -1 :=
  ⟨rfl, by show (-1:ℚ) < 0; norm_num, rfl, rfl, rfl, rfl⟩

/-- C10: every reachable player state has its animation frame index below 6,
the length of `DRAGON_FRAMES`, so the glyph lookup in `render` is in bounds. -/
theorem C10_frame_in_bounds (p : Player) (h : PlayerReachable p) :
    p.frame < DRAGON_FRAMES.length ∧ p.renderGlyph.isSome = true := by
  have hf : p.frame < 6 := (reachable_inv p h).2.2.2
  have hall : ∀ n, n < 6 → ((DRAGON_FRAMES.get? n).isSome = true) := by decide
  exact ⟨hf, hall p.frame hf⟩

/-- C10 witness: the initial player after one flap. -/
theorem C10_frame_in_bounds_witness :
    PlayerReachable (Player.new 5 25).flap ∧
      (Player.new 5 25).flap.frame < DRAGON_FRAMES.length :=
  ⟨PlayerReachable.flap _ PlayerReachable.init,
    (C10_frame_in_bounds _ (PlayerReachable.flap _ PlayerReachable.init)).1⟩

/-- C8, as stated, is false: with the player at `x = 5` and the obstacle at
`x = 45` the horizontal positions differ, so `hit_obstacle` reports no
collision even at `player.y = 20`. -/
theorem C8_counterexample :
    ¬ (Obstacle.hit_obstacle ⟨45, 12, 8⟩ ⟨5, 20, 0, 0⟩ = true) := by decide

/-- C8 (amended): with the obstacle at `x = 45`, `gap_y = 12`, `size = 8`
(half-size 4), a player at `x = 5` is never in collision, whatever its `y`
(in particular also at `y = 20`); a player at `x = 45` is not in collision
for any `y ∈ [8, 16]` and is in collision at `y = 20`. -/
theorem C8_scenario (y z : ℚ) (hy8 : 8 ≤ y) (hy16 : y ≤ 16) :
    Obstacle.hit_obstacle ⟨45, 12, 8⟩ ⟨5, z, 0, 0⟩ = false ∧
    Obstacle.hit_obstacle ⟨45, 12, 8⟩ ⟨45, y, 0, 0⟩ = false ∧
    Obstacle.hit_obstacle ⟨45, 12, 8⟩ ⟨45, 20, 0, 0⟩ = true := by
  refine ⟨?_, ?_, by decide⟩
  · rw [Bool.eq_false_iff]
    intro hcontra
    obtain ⟨hx, -⟩ := (hit_obstacle_iff _ _).mp hcontra
    exact absurd (show (5:Int) = 45 from hx) (by decide)
  · rw [Bool.eq_false_iff]
    intro hcontra
    obtain ⟨-, hout⟩ := (hit_obstacle_iff _ _).mp hcontra
    have h0 : (0:ℚ) ≤ y := by linarith
    have hfe : f32toi32 y = ⌊y⌋ := f32toi32_eq_floor y h0
    have hhalf : Obstacle.half_size ⟨45, 12, 8⟩ = 4 := by decide
    have hgap : (⟨45, 12, 8⟩ : Obstacle).gap_y = 12 := rfl
    rw [hhalf, hgap, hfe] at hout
    have hlow : (8:ℤ) ≤ ⌊y⌋ := Int.le_floor.mpr (by exact_mod_cast hy8)
    have hhigh : ⌊y⌋ ≤ 16 := by
      have hmono := Int.floor_mono hy16
      have h16 : (⌊(16:ℚ)⌋ : ℤ) = 16 := by norm_num
      omega
    omega

/-- C8 witness: the in-gap case at `y = 10` with the player at the obstacle. -/
theorem C8_scenario_witness :
    (8:ℚ) ≤ 10 ∧ (10:ℚ) ≤ 16 ∧
      Obstacle.hit_obstacle ⟨45, 12, 8⟩ ⟨45, 10, 0, 0⟩ = false :=
  ⟨by decide, by decide, (C8_scenario 10 0 (by decide) (by decide)).2.1⟩

/-- C9: in Menu and in Dead mode, a tick whose key is anything other than P
or Q (or no key at all) leaves the whole state unchanged and does not set the
quit flag; and in every mode a tick with an unrecognized key behaves exactly
like a tick with no key. -/
theorem C9_unrecognized_input_noop (s : State) (ftms : ℚ) (gapY : Int) :
    (∀ key : Option Key,
        (key = none ∨ key = some Key.Space ∨ key = some Key.Other) →
        (s.mode = GameMode.Menu ∨ s.mode = GameMode.End) →
        s.tick ftms key gapY = (s, false)) ∧
    s.tick ftms (some Key.Other) gapY = s.tick ftms none gapY := by
  constructor
  · rintro key (rfl | rfl | rfl) (hm | hm) <;>
      · unfold State.tick
        rw [hm]
        rfl
  · unfold State.tick
    cases hm : s.mode
    · rfl
    · rfl
    · rfl

/-- C9 witness: an unrecognized key in the initial menu state is a no-op. -/
theorem C9_unrecognized_input_noop_witness :
    (State.new 7).tick 0 (some Key.Other) 7 = (State.new 7, false) :=
  (C9_unrecognized_input_noop (State.new 7) 0 7).1 (some Key.Other)
    (Or.inr (Or.inr rfl)) (Or.inl rfl)

end FlappyDragon
